import Mathlib

/-!
Shallow embedding of the `openapi-codegen` compiler front end
(`src/api.rs`, `src/types.rs`) and proofs about its behaviour.

Rust `Option` becomes Lean `Option`; fallible code (`anyhow::Result`,
plus panics from `assert!` / `expect` / `todo!`) becomes `Except String`
with panics modelled as `.error`; the ordered maps (`BTreeMap`,
`IndexMap`) become association lists, since no claim depends on
iteration order beyond membership.
-/

namespace Codegen

/-- `schemars::schema::SingleOrVec`. -/
inductive SingleOrVec (α : Type) where
  | single : α → SingleOrVec α
  | vec : List α → SingleOrVec α
deriving DecidableEq

/-- `schemars::schema::InstanceType`. -/
inductive InstanceType where
  | null
  | boolean
  | object
  | array
  | number
  | string
  | integer
deriving DecidableEq

mutual

/-- `schemars::schema::Schema`: either a boolean schema or an object schema. -/
inductive Schema where
  | bool : Bool → Schema
  | object : SchemaObject → Schema

/-- `schemars::schema::SchemaObject`, restricted to the fields the embedded
code reads: `instance_type`, `format`, `reference`, `array`, `object`.
All other fields are never inspected by `src/api.rs` / `src/types.rs`. -/
inductive SchemaObject where
  | mk :
    (instance_type : Option (SingleOrVec InstanceType)) →
    (format : Option String) →
    (reference : Option String) →
    (array : Option ArrayValidation) →
    (objectv : Option ObjectValidation) →
    SchemaObject

/-- `schemars::schema::ArrayValidation`, fields read by the code. -/
inductive ArrayValidation where
  | mk :
    (additional_items : Option Schema) →
    (items : Option (SingleOrVec Schema)) →
    (unique_items : Option Bool) →
    ArrayValidation

/-- `schemars::schema::ObjectValidation`, fields read by the code. -/
inductive ObjectValidation where
  | mk :
    (additional_properties : Option Schema) →
    (max_properties : Option Nat) →
    (min_properties : Option Nat) →
    (properties : List (String × Schema)) →
    (pattern_properties : List (String × Schema)) →
    (property_names : Option Schema) →
    (required : List String) →
    ObjectValidation

end

def SchemaObject.instance_type : SchemaObject → Option (SingleOrVec InstanceType)
  | .mk it _ _ _ _ => it

def SchemaObject.format : SchemaObject → Option String
  | .mk _ f _ _ _ => f

def SchemaObject.reference : SchemaObject → Option String
  | .mk _ _ r _ _ => r

def SchemaObject.array : SchemaObject → Option ArrayValidation
  | .mk _ _ _ a _ => a

def SchemaObject.objectv : SchemaObject → Option ObjectValidation
  | .mk _ _ _ _ o => o

/-- `aide::openapi::SchemaObject`: wraps a `schemars` schema (the other
fields, `external_docs` and `example`, are never read). -/
structure OpenapiSchemaObject where
  json_schema : Schema

/-- `aide::openapi::ReferenceOr`. -/
inductive ReferenceOr (α : Type) where
  | Reference : (reference : String) → ReferenceOr α
  | Item : α → ReferenceOr α

/-- `aide::openapi::ParameterSchemaOrContent`.  The `Content` payload is
never inspected by the embedded code, so it is left empty here. -/
inductive ParameterSchemaOrContent where
  | Schema : OpenapiSchemaObject → ParameterSchemaOrContent
  | Content : ParameterSchemaOrContent

/-- `aide::openapi::ParameterData`, fields read by the code. -/
structure ParameterData where
  name : String
  description : Option String
  required : Bool
  format : ParameterSchemaOrContent

/-- `aide::openapi::PathStyle`. -/
inductive PathStyle where
  | Matrix
  | Label
  | Simple
deriving DecidableEq

/-- `aide::openapi::QueryStyle`. -/
inductive QueryStyle where
  | Form
  | SpaceDelimited
  | PipeDelimited
  | DeepObject
deriving DecidableEq

/-- `aide::openapi::HeaderStyle`. -/
inductive HeaderStyle where
  | Simple
deriving DecidableEq

/-- `aide::openapi::CookieStyle`. -/
inductive CookieStyle where
  | Form
deriving DecidableEq

/-- `aide::openapi::Parameter`. -/
inductive Parameter where
  | Query :
    (parameter_data : ParameterData) → (allow_reserved : Bool) →
    (style : QueryStyle) → (allow_empty_value : Option Bool) → Parameter
  | Header : (parameter_data : ParameterData) → (style : HeaderStyle) → Parameter
  | Path : (parameter_data : ParameterData) → (style : PathStyle) → Parameter
  | Cookie : (parameter_data : ParameterData) → (style : CookieStyle) → Parameter

/-- `aide::openapi::MediaType`, fields read by the code (`schema`,
`extensions`); extension values are irrelevant, only emptiness is
checked, so extensions are modelled by their key list. -/
structure MediaType where
  schema : Option OpenapiSchemaObject
  extensions : List String

/-- `aide::openapi::RequestBody`, fields read by the code. -/
structure RequestBody where
  content : List (String × MediaType)
  required : Bool
  extensions : List String

/-- `aide::openapi::Response`, fields read by the code. -/
structure Response where
  content : List (String × MediaType)
  extensions : List String

/-- `aide::openapi::StatusCode` (`u16` payloads modelled as `Nat`). -/
inductive StatusCode where
  | Code : Nat → StatusCode
  | Range : Nat → StatusCode
deriving DecidableEq

/-- `aide::openapi::Responses`, fields read by the code. -/
structure Responses where
  default : Option (ReferenceOr Response)
  responses : List (StatusCode × ReferenceOr Response)
  extensions : List String

/-- `aide::openapi::Operation`, fields read by `Operation::from_openapi`. -/
structure OpenapiOperation where
  description : Option String
  operation_id : Option String
  parameters : List (ReferenceOr Parameter)
  request_body : Option (ReferenceOr RequestBody)
  responses : Option Responses

/-- `aide::openapi::PathItem`: path-item-level `parameters`, plus the
(method, operation) pairs that aide's `IntoIterator for PathItem`
yields for the populated HTTP-method fields. -/
structure PathItem where
  parameters : List (ReferenceOr Parameter)
  operations : List (String × OpenapiOperation)

/-- `FieldType` from `src/types.rs`: the closed set of supported field
types.  Constructor names are lowercased relative to the Rust variants
(`Bool`, `Int16`, ..., `List`, `Set`, `Map`, `SchemaRef`) to avoid
clashing with the Lean types of the same names. -/
inductive FieldType where
  | bool
  | int16
  | uint16
  | int32
  | int64
  | uint64
  | string
  | dateTime
  | uri
  | jsonObject
  | list : FieldType → FieldType
  | set : FieldType → FieldType
  | map : (value_ty : FieldType) → FieldType
  | schemaRef : String → FieldType
deriving DecidableEq

/-- `FieldType::to_csharp_typename`.  The `todo!()` branch (a panic when
reached) is modelled as `none`; a panic in an inner projection
propagates outward, hence the `Option.map`. -/
def FieldType.to_csharp_typename : FieldType → Option String
  | .bool => some "bool"
  | .int32 | .int64 | .uint64 => some "int"
  | .string => some "string"
  | .dateTime => some "DateTime"
  | .int16 | .uint16 | .uri | .jsonObject | .map _ => none
  | .list field_type | .set field_type =>
    (FieldType.to_csharp_typename field_type).map (fun s => "List<" ++ s ++ ">")
  | .schemaRef name => some name

/-- `FieldType::to_go_typename`, `todo!()` modelled as `none`. -/
def FieldType.to_go_typename : FieldType → Option String
  | .bool => some "bool"
  | .int32 | .int64 | .uint64 => some "int32"
  | .string => some "string"
  | .dateTime => some "time.Time"
  | .int16 | .uint16 | .uri | .jsonObject | .map _ => none
  | .list field_type | .set field_type =>
    (FieldType.to_go_typename field_type).map (fun s => "[]" ++ s)
  | .schemaRef name => some name

/-- `FieldType::to_kotlin_typename`, `todo!()` modelled as `none`. -/
def FieldType.to_kotlin_typename : FieldType → Option String
  | .bool => some "Boolean"
  | .int32 | .int64 | .uint64 => some "Int"
  | .string => some "String"
  | .dateTime => some "OffsetDateTime"
  | .int16 | .uint16 | .uri | .jsonObject | .map _ => none
  | .list field_type | .set field_type =>
    (FieldType.to_kotlin_typename field_type).map (fun s => "List<" ++ s ++ ">")
  | .schemaRef name => some name

/-- `FieldType::to_js_typename`, `todo!()` modelled as `none`. -/
def FieldType.to_js_typename : FieldType → Option String
  | .bool => some "boolean"
  | .int16 | .uint16 | .int32 | .int64 | .uint64 => some "number"
  | .string => some "string"
  | .dateTime => some "Date | null"
  | .uri | .jsonObject | .map _ => none
  | .list field_type | .set field_type =>
    (FieldType.to_js_typename field_type).map (fun s => s ++ "[]")
  | .schemaRef name => some name

/-- `FieldType::to_rust_typename`.  This projector is total (no `todo!()`
branch in the source), so it returns a plain `String`. -/
def FieldType.to_rust_typename : FieldType → String
  | .bool => "bool"
  | .int16 => "i16"
  | .uint16 => "u16"
  | .int32 | .int64 | .uint64 => "i32"
  | .uri | .string => "String"
  | .dateTime => "DateTime<Utc>"
  | .jsonObject => "serde_json::Value"
  | .list field_type | .set field_type =>
    "Vec<" ++ FieldType.to_rust_typename field_type ++ ">"
  | .map value_ty =>
    "std::collections::HashMap<String, " ++ FieldType.to_rust_typename value_ty ++ ">"
  | .schemaRef name => name


/-- Modelled from the spec: `get_schema_name` lives in `src/util.rs`, which
is not among the provided sources.  Per the spec (section 6), component
schema references are identified by the conventional path
`#/components/schemas/<Name>` and carry the bare name extractable from
that path; any other reference shape yields no name. -/
def get_schema_name (reference : Option String) : Option String :=
  match reference with
  | none => none
  | some r =>
    match stripRefPath "#/components/schemas/".toList r.toList with
    | some rest => some (String.mk rest)
    | none => none
where
  /-- Strips the leading component-schema path, character by character. -/
  stripRefPath : List Char → List Char → Option (List Char)
    | [], cs => some cs
    | _ :: _, [] => none
    | p :: ps, c :: cs => if p = c then stripRefPath ps cs else none

mutual

/-- `FieldType::from_schema` (`src/types.rs`). -/
def FieldType.from_schema : Schema → Except String FieldType
  | .bool _ => .error "found unexpected true schema"
  | .object obj => FieldType.from_schema_object obj

/-- `FieldType::from_schema_object` (`src/types.rs`).  `ensure!`/`bail!`
failures become `.error`; the error strings keep the source wording
(minus interpolated debug payloads). -/
def FieldType.from_schema_object : SchemaObject → Except String FieldType
  | .mk instance_type fmt reference array objectv =>
    match instance_type with
    | some (.single ty) =>
      match ty with
      | .boolean => .ok .bool
      | .integer =>
        match fmt with
        | some "int16" => .ok .int16
        | some "uint16" => .ok .uint16
        | some "int32" => .ok .int32
        | some "int" | some "int64" => .ok .int64
        | some "uint" | some "uint64" => .ok .uint64
        | _ => .error "unsupported integer format"
      | .string =>
        match fmt with
        | none => .ok .string
        | some "date-time" => .ok .dateTime
        | some "uri" => .ok .uri
        | some _ => .error "unsupported string format"
      | .array =>
        match array with
        | none => .error "array type must have array props"
        | some (.mk additional_items items unique_items) =>
          match additional_items with
          | some _ => .error "not supported"
          | none =>
            match items with
            | none => .error "array type must have items prop"
            | some (.vec _) => .error "unsupported multi-typed array parameter"
            | some (.single inner) =>
              match FieldType.from_schema inner with
              | .error e => .error e
              | .ok innerTy =>
                if unique_items = some true then .ok (.set innerTy) else .ok (.list innerTy)
      | .object =>
        match objectv with
        | none => .error "unsupported: object type without further validation"
        | some (.mk additional_properties maxp minp props patprops propnames required) =>
          match additional_properties with
          | none => .error "unsupported: object field type without additional_properties"
          | some ap =>
            if maxp.isSome then .error "unsupported: max_properties"
            else if minp.isSome then .error "unsupported: min_properties"
            else if !props.isEmpty then .error "unsupported: properties on field type"
            else if !patprops.isEmpty then .error "unsupported: pattern_properties"
            else if propnames.isSome then .error "unsupported: property_names"
            else if !required.isEmpty then .error "unsupported: required on field type"
            else
              match ap with
              | .bool true => .ok .jsonObject
              | .bool false => .error "unsupported additional_properties false"
              | .object schema_object =>
                match FieldType.from_schema_object schema_object with
                | .error e => .error e
                | .ok value_ty => .ok (.map value_ty)
      | _ => .error "unsupported type"
    | some (.vec _) => .error "unsupported multi-typed parameter"
    | none =>
      match get_schema_name reference with
      | some name => .ok (.schemaRef name)
      | none => .error "unsupported type-less parameter"

end

/-- `FieldType::from_openapi` (`src/types.rs`). -/
def FieldType.from_openapi : ParameterSchemaOrContent → Except String FieldType
  | .Content => .error "found unexpected content data format"
  | .Schema s => FieldType.from_schema s.json_schema

/-- `enforce_string_parameter` (`src/api.rs`): the parameter format must
be an inline schema, the schema must be an object schema, and its
`instance_type` must be exactly the single instance type `string`. -/
def enforce_string_parameter (parameter_data : ParameterData) : Except String Unit :=
  match parameter_data.format with
  | .Content => .error "found unexpected content data format"
  | .Schema s =>
    match s.json_schema with
    | .bool _ => .error "found unexpected true schema"
    | .object obj =>
      if obj.instance_type = some (.single .string) then .ok ()
      else .error "unsupported path parameter type"

/-- Models Rust `str::split('.')` on the operation identifier: splits at
every dot, keeping empty segments (so the segment list is always
nonempty). -/
def splitDot (s : String) : List String :=
  (splitChars s.toList).map String.mk
where
  splitChars : List Char → List (List Char)
    | [] => [[]]
    | c :: rest =>
      if c = '.' then [] :: splitChars rest
      else
        match splitChars rest with
        | [] => [[c]]
        | h :: t => (c :: h) :: t

/-- `HeaderParam` (`src/api.rs`). -/
structure HeaderParam where
  name : String
  required : Bool
deriving DecidableEq

/-- `QueryParam` (`src/api.rs`); `r_type` models the Rust field `r#type`. -/
structure QueryParam where
  name : String
  description : Option String
  required : Bool
  r_type : FieldType
deriving DecidableEq

/-- `Operation` (`src/api.rs`): the normalized IR of one HTTP endpoint. -/
structure Operation where
  id : String
  name : String
  description : Option String
  method : String
  path : String
  path_params : List String
  header_params : List HeaderParam
  query_params : List QueryParam
  request_body_schema_name : Option String
  response_body_schema_name : Option String
deriving DecidableEq

/-- First-match association-list lookup; models map lookup for the
`IndexMap`s of the source (whose keys are unique). -/
def assocLookup {α : Type} (key : String) : List (String × α) → Option α
  | [] => none
  | (k, v) :: rest => if k = key then some v else assocLookup key rest

/-- Removes the first entry with the given key; models `IndexMap::swap_remove`
(whose reordering of the remaining entries no lookup ever observes). -/
def removeFirst {α : Type} (key : String) : List (String × α) → List (String × α)
  | [] => []
  | (k, v) :: rest => if k = key then rest else (k, v) :: removeFirst key rest

/-- The request-body closure inside `Operation::from_openapi`
(`src/api.rs` lines 282-309): `assert!`-style panics become `.error`,
a `$ref` body or boolean body schema yields no name (after an error
log), and the referenced name is extracted from the `$ref` path. -/
def request_body_name : Option (ReferenceOr RequestBody) → Except String (Option String)
  | none => .ok none
  | some (.Reference _) => .ok none
  | some (.Item req_body) =>
    if !req_body.required then .error "assertion failed: req_body.required"
    else if !req_body.extensions.isEmpty then .error "assertion failed: req_body.extensions.is_empty()"
    else if req_body.content.length ≠ 1 then .error "assertion failed: req_body.content.len() == 1"
    else
      match assocLookup "application/json" req_body.content with
      | none => .error "should have JSON body"
      | some json_body =>
        if !json_body.extensions.isEmpty then .error "assertion failed: json_body.extensions.is_empty()"
        else
          match json_body.schema with
          | none => .error "no json body schema?!"
          | some s =>
            match s.json_schema with
            | .bool _ => .ok none
            | .object obj => .ok (get_schema_name obj.reference)

/-- `response_body_schema_name` (`src/api.rs` lines 375-407): the schema
name referenced by one response; an empty content map means "no body". -/
def response_body_schema_name : ReferenceOr Response → Except String (Option String)
  | .Reference _ => .ok none
  | .Item resp_body =>
    if !resp_body.extensions.isEmpty then .error "assertion failed: resp_body.extensions.is_empty()"
    else if resp_body.content.isEmpty then .ok none
    else if resp_body.content.length ≠ 1 then .error "assertion failed: resp_body.content.len() == 1"
    else
      match assocLookup "application/json" resp_body.content with
      | none => .error "should have JSON body"
      | some json_body =>
        if !json_body.extensions.isEmpty then .error "assertion failed: json_body.extensions.is_empty()"
        else
          match json_body.schema with
          | none => .error "no json body schema?!"
          | some s =>
            match s.json_schema with
            | .bool _ => .ok none
            | .object obj => .ok (get_schema_name obj.reference)

/-- The success filter in `Operation::from_openapi` (lines 314-329): only
literal status codes in [200, 300) survive; everything else (including
ranges) is logged and dropped. -/
def is_success_status (st : StatusCode) : Bool :=
  match st with
  | .Code c => 200 ≤ c && c < 300
  | .Range _ => false

/-- The success responses of a responses object, in declaration order. -/
def success_responses (r : Responses) : List (StatusCode × ReferenceOr Response) :=
  r.responses.filter (fun p => is_success_status p.1)

/-- The `assert_eq!` loop over the remaining success responses
(lines 335-337): each must agree with the first schema name. -/
def assert_responses_agree (schema_name : Option String) :
    List (StatusCode × ReferenceOr Response) → Except String (Option String)
  | [] => .ok schema_name
  | (_, resp) :: rest =>
    match response_body_schema_name resp with
    | .error e => .error e
    | .ok n =>
      if n = schema_name then assert_responses_agree schema_name rest
      else .error "assertion failed: schema_name == response_body_schema_name(resp)"

/-- Body of the responses closure in `Operation::from_openapi`
(lines 311-340): asserts no default response and no extensions, requires
at least one success response (`expect`, a panic), and requires all
success responses to agree on the referenced schema name. -/
def extract_response_name (r : Responses) : Except String (Option String) :=
  if r.default.isSome then .error "assertion failed: r.default == None"
  else if !r.extensions.isEmpty then .error "assertion failed: r.extensions.is_empty()"
  else
    match success_responses r with
    | [] => .error "every operation must have one success response"
    | (_, resp) :: rest =>
      match response_body_schema_name resp with
      | .error e => .error e
      | .ok schema_name => assert_responses_agree schema_name rest

/-- `op.responses.and_then(...)` in `Operation::from_openapi`: a missing
responses object yields no schema name without any check. -/
def responses_schema_name : Option Responses → Except String (Option String)
  | none => .ok none
  | some r => extract_response_name r

/-- The parameter loop of `Operation::from_openapi` (lines 217-280),
with the three accumulator vectors made explicit.  `.ok none` models
`return None` (operation skipped); `.error` models the
`assert!(parameter_data.required, "no optional path params")` panic. -/
def process_params :
    List (ReferenceOr Parameter) → List String → List HeaderParam → List QueryParam →
    Except String (Option (List String × List HeaderParam × List QueryParam))
  | [], path_params, header_params, query_params =>
    .ok (some (path_params, header_params, query_params))
  | param :: rest, path_params, header_params, query_params =>
    match param with
    | .Reference _ => .ok none
    | .Item (.Path parameter_data .Simple) =>
      if !parameter_data.required then .error "no optional path params"
      else
        match enforce_string_parameter parameter_data with
        | .error _ => .ok none
        | .ok _ =>
          process_params rest (path_params ++ [parameter_data.name]) header_params query_params
    | .Item (.Header parameter_data .Simple) =>
      match enforce_string_parameter parameter_data with
      | .error _ => .ok none
      | .ok _ =>
        process_params rest path_params
          (header_params ++ [{ name := parameter_data.name, required := parameter_data.required }])
          query_params
    | .Item (.Query parameter_data false .Form none) =>
      match FieldType.from_openapi parameter_data.format with
      | .error _ => .ok none
      | .ok t =>
        process_params rest path_params header_params
          (query_params ++ [{ name := parameter_data.name,
                              description := parameter_data.description,
                              required := parameter_data.required, r_type := t }])
    | .Item _ => .ok none

/-- `Operation::from_openapi` (`src/api.rs` lines 196-358).  Returns
`.ok none` when the operation is skipped, `.ok (some (resource_name,
operation))` on success, and `.error` when one of the source's panics
fires (which aborts the whole compilation). -/
def Operation.from_openapi (path method : String) (op : OpenapiOperation) :
    Except String (Option (String × Operation)) :=
  match op.operation_id with
  | none => .ok none
  | some op_id =>
    match splitDot op_id with
    | [version, res_name, op_name] =>
      if version ≠ "v1" then .ok none
      else
        match process_params op.parameters [] [] [] with
        | .error e => .error e
        | .ok none => .ok none
        | .ok (some (path_params, header_params, query_params)) =>
          match request_body_name op.request_body with
          | .error e => .error e
          | .ok req_name =>
            match responses_schema_name op.responses with
            | .error e => .error e
            | .ok resp_name =>
              .ok (some (res_name,
                { id := op_id
                  name := op_name
                  description := op.description
                  method := method
                  path := path
                  path_params := path_params
                  header_params := header_params
                  query_params := query_params
                  request_body_schema_name := req_name
                  response_body_schema_name := resp_name }))
    | _ => .ok none

/-- `Resource` (`src/api.rs`): a named group of operations. -/
structure Resource where
  name : String
  operations : List Operation
deriving DecidableEq

/-- `Api` (`src/api.rs`): the resource map.  The source uses a `BTreeMap`
(iteration sorted by name); an association list models it, since no
claim depends on iteration order. -/
structure Api where
  resources : List (String × Resource)
deriving DecidableEq

/-- `resources.entry(res_name).or_insert_with(|| Resource::new(res_name))`
followed by pushing the operation: append to the existing resource, or
create a fresh one holding just this operation. -/
def insertOperation (resources : List (String × Resource)) (res_name : String)
    (o : Operation) : List (String × Resource) :=
  match resources with
  | [] => [(res_name, { name := res_name, operations := [o] })]
  | (k, r) :: rest =>
    if k = res_name then (k, { r with operations := r.operations ++ [o] }) :: rest
    else (k, r) :: insertOperation rest res_name o

/-- The inner method loop of `Api::new` (lines 44-51). -/
def processOps (path : String) (ops : List (String × OpenapiOperation))
    (acc : List (String × Resource)) : Except String (List (String × Resource)) :=
  match ops with
  | [] => .ok acc
  | (method, op) :: rest =>
    match Operation.from_openapi path method op with
    | .error e => .error e
    | .ok none => processOps path rest acc
    | .ok (some (res_name, o)) => processOps path rest (insertOperation acc res_name o)

/-- The path loop of `Api::new` (lines 34-52): a `$ref` path item is a
fatal error, a path item with path-item-level parameters is skipped
whole, and each surviving (method, operation) pair goes through
`Operation::from_openapi`. -/
def buildResources :
    List (String × ReferenceOr PathItem) → List (String × Resource) →
    Except String (List (String × Resource))
  | [], acc => .ok acc
  | (path, pi) :: rest, acc =>
    match pi with
    | .Reference _ => .error "$ref paths are currently not supported"
    | .Item path_item =>
      if !path_item.parameters.isEmpty then buildResources rest acc
      else
        match processOps path path_item.operations acc with
        | .error e => .error e
        | .ok acc2 => buildResources rest acc2

/-- `Api::new` (`src/api.rs` lines 31-55). -/
def Api.new (paths : List (String × ReferenceOr PathItem)) : Except String Api :=
  match buildResources paths [] with
  | .error e => .error e
  | .ok resources => .ok { resources := resources }

/-- `Api::referenced_components` (lines 57-62): the request-body schema
names of all operations, in resource order.  Note the source reads only
`request_body_schema_name`, never `response_body_schema_name`. -/
def Api.referenced_components (api : Api) : List String :=
  ((api.resources.map (fun p => p.2.operations)).flatten).filterMap
    (fun o => o.request_body_schema_name)

/-- The `BTreeSet` collection in `Api::types` (line 65): de-duplicated,
name-sorted set of referenced component names. -/
def sortedDedup (l : List String) : List String :=
  (l.insertionSort (· ≤ ·)).dedup

/-- `Types` as assembled by `Api::types` (`src/api.rs` lines 64-86): the
named raw schema objects claimed from the component table.  (In
`src/types.rs` the map values are further converted by
`Type::from_schema`; the claims concern only the name set assembled
here.) -/
structure Types where
  toMap : List (String × SchemaObject)

/-- The filter loop of `Api::types`: each referenced name is looked up in
(and removed from, via `swap_remove`) the raw schema table; a missing
name or boolean schema produces a warning and no entry. -/
def typesGo : List String → List (String × OpenapiSchemaObject) → List (String × SchemaObject)
  | [], _ => []
  | schema_name :: rest, schemas =>
    match assocLookup schema_name schemas with
    | none => typesGo rest schemas
    | some s =>
      match s.json_schema with
      | .bool _ => typesGo rest (removeFirst schema_name schemas)
      | .object schema_object =>
        (schema_name, schema_object) :: typesGo rest (removeFirst schema_name schemas)

/-- `Api::types` (`src/api.rs` lines 64-86). -/
def Api.types (api : Api) (schemas : List (String × OpenapiSchemaObject)) : Types :=
  ⟨typesGo (sortedDedup api.referenced_components) schemas⟩

/-- Modelled from the spec: the path-parameter names "named in the
operation's path template" (section 3, Operation invariant), i.e. the
segments enclosed in braces.  The source never computes this set; the
definition exists only to state the spec's claimed invariant. -/
def pathTemplateParams (path : String) : List String :=
  collect path.toList none
where
  /-- Scans the template; the second argument holds the characters of the
  brace-delimited name currently being read (in reverse), if any. -/
  collect : List Char → Option (List Char) → List String
    | [], none => []
    | [], some acc => [String.mk acc.reverse]
    | c :: rest, none =>
      if c = '\x7b' then collect rest (some []) else collect rest none
    | c :: rest, some acc =>
      if c = '\x7d' then String.mk acc.reverse :: collect rest none
      else collect rest (some (c :: acc))

/-! ### Concrete inputs used by witnesses and counterexamples -/

/-- A string-typed inline parameter schema. -/
def stringParamSchema : ParameterSchemaOrContent :=
  .Schema ⟨.object (.mk (some (.single .string)) none none none none)⟩

/-- An integer-typed inline parameter schema (not a string schema). -/
def intParamSchema : ParameterSchemaOrContent :=
  .Schema ⟨.object (.mk (some (.single .integer)) (some "int64") none none none)⟩

/-- C2 counterexample input: path template `/foo/(id)` (with braces) but
an operation declaring no parameters at all. -/
def c2op : OpenapiOperation :=
  { description := none, operation_id := some "v1.foo.get", parameters := [],
    request_body := none, responses := none }

/-- The operation record extracted from `c2op`. -/
def c2out : Operation :=
  { id := "v1.foo.get", name := "get", description := none, method := "get",
    path := "/foo/\x7bid\x7d", path_params := [], header_params := [], query_params := [],
    request_body_schema_name := none, response_body_schema_name := none }

/-- C2 counterexample path table: the path template names parameter
`id`, the operation declares no parameters. -/
def c2paths : List (String × ReferenceOr PathItem) :=
  [("/foo/\x7bid\x7d", .Item { parameters := [], operations := [("get", c2op)] })]

/-- The `Api` built from `c2paths`. -/
def c2api : Api :=
  { resources := [("foo", { name := "foo", operations := [c2out] })] }

/-- C2 witness input: one required string path parameter `id`. -/
def c2wop : OpenapiOperation :=
  { description := none, operation_id := some "v1.foo.get",
    parameters := [.Item (.Path { name := "id", description := none, required := true,
                                  format := stringParamSchema } .Simple)],
    request_body := none, responses := none }

/-- The operation record extracted from `c2wop`. -/
def c2wout : Operation :=
  { id := "v1.foo.get", name := "get", description := none, method := "get",
    path := "/foo", path_params := ["id"], header_params := [], query_params := [],
    request_body_schema_name := none, response_body_schema_name := none }

/-- C3 counterexample input: a non-required (optional) path parameter,
which trips the `assert!(parameter_data.required)` panic. -/
def c3op : OpenapiOperation :=
  { description := none, operation_id := some "v1.foo.get",
    parameters := [.Item (.Path { name := "id", description := none, required := false,
                                  format := stringParamSchema } .Simple)],
    request_body := none, responses := none }

/-- C3 witness input: a required path parameter whose schema is an
integer, not a string. -/
def c3wop : OpenapiOperation :=
  { description := none, operation_id := some "v1.foo.get",
    parameters := [.Item (.Path { name := "id", description := none, required := true,
                                  format := intParamSchema } .Simple)],
    request_body := none, responses := none }

/-- A media type whose schema is a `$ref` to component `Foo`. -/
def fooRefMediaType : MediaType :=
  { schema := some ⟨.object (.mk none none (some "#/components/schemas/Foo") none none)⟩,
    extensions := [] }

/-- The single success-response entry used by the C4 witness. -/
def c4successList : List (StatusCode × ReferenceOr Response) :=
  [(.Code 200, .Item { content := [("application/json", fooRefMediaType)],
                       extensions := [] })]

/-- C4 witness input: one success response (200) referencing `Foo`. -/
def c4resp : Responses :=
  { default := none, responses := c4successList, extensions := [] }

/-- C9 witness input: a valid operation with no responses object. -/
def c9op : OpenapiOperation :=
  { description := none, operation_id := some "v1.a.b", parameters := [],
    request_body := none, responses := none }

/-- The operation record extracted from `c9op`. -/
def c9out : Operation :=
  { id := "v1.a.b", name := "b", description := none, method := "get", path := "/p",
    path_params := [], header_params := [], query_params := [],
    request_body_schema_name := none, response_body_schema_name := none }

/-- An operation whose single success response references component
`Foo` as its body but which has no request body. -/
def c1respOp : Operation :=
  { id := "v1.foo.get", name := "get", description := none, method := "get", path := "/foo",
    path_params := [], header_params := [], query_params := [],
    request_body_schema_name := none, response_body_schema_name := some "Foo" }

/-- C1 counterexample input: an `Api` whose only operation references
`Foo` as its response body (and nothing as its request body). -/
def c1api : Api :=
  { resources := [("foo", { name := "foo", operations := [c1respOp] })] }

/-- An empty object schema, as a raw component-schema table entry. -/
def c1fooObj : SchemaObject :=
  .mk (some (.single .object)) none none none (some (.mk none none none [] [] none []))

/-- A raw component-schema table holding an object schema named `Foo`. -/
def c1schemas : List (String × OpenapiSchemaObject) :=
  [("Foo", ⟨.object c1fooObj⟩)]

/-- An operation referencing `Bar` as its request body. -/
def c1reqOp : Operation :=
  { id := "v1.foo.create", name := "create", description := none, method := "post",
    path := "/foo", path_params := [], header_params := [], query_params := [],
    request_body_schema_name := some "Bar", response_body_schema_name := none }

/-- C1 witness input: an `Api` whose only operation references `Bar` as
its request body. -/
def c1wapi : Api :=
  { resources := [("foo", { name := "foo", operations := [c1reqOp] })] }

/-- An empty object schema named `Bar`, for the C1 witness table. -/
def c1barObj : SchemaObject :=
  .mk (some (.single .object)) none none none (some (.mk none none none [] [] none []))

/-- A raw component-schema table holding an object schema named `Bar`. -/
def c1wschemas : List (String × OpenapiSchemaObject) :=
  [("Bar", ⟨.object c1barObj⟩)]

/-- C10 witness input: one path with one valid GET operation. -/
def c10paths : List (String × ReferenceOr PathItem) :=
  [("/foo", .Item { parameters := [],
                    operations := [("get",
                      { description := none, operation_id := some "v1.foo.get",
                        parameters := [], request_body := none, responses := none })] })]

/-- The operation record extracted from `c10paths`. -/
def c10out : Operation :=
  { id := "v1.foo.get", name := "get", description := none, method := "get", path := "/foo",
    path_params := [], header_params := [], query_params := [],
    request_body_schema_name := none, response_body_schema_name := none }

/-- The single resource built from `c10paths`. -/
def c10res : Resource :=
  { name := "foo", operations := [c10out] }

/-- The `Api` built from `c10paths`. -/
def c10api : Api :=
  { resources := [("foo", c10res)] }

/-- The invariant claimed for the resource map: every resource carries
its own map key as name, holds at least one operation, and every
contained operation's identifier has that resource name as its second
dot-segment. -/
def resourcesWellFormed (rs : List (String × Resource)) : Prop :=
  ∀ p ∈ rs, p.2.name = p.1 ∧ p.2.operations ≠ [] ∧
    ∀ o ∈ p.2.operations, (splitDot o.id).get? 1 = some p.1

/-! ### Claim theorems -/

/-- Claim C5 counterexample: in the C# projector, `Uri` does not project
to the same type-name as `String`: `String` yields `"string"` while
`Uri` hits the `todo!()` branch (a panic, modelled as `none`).  So it is
false that every target language projects `Uri` like `String`. -/
theorem C5_counterexample :
    ¬ FieldType.to_csharp_typename .uri = FieldType.to_csharp_typename .string := by
  decide

/-- Claim C5 (amended): only the Rust projector maps `Uri` to the same
literal type-name as `String`; in the C#, Go, Kotlin and JS projectors
`String` yields the plain string type while `Uri` is unimplemented
(`todo!()`, fatal if reached). -/
theorem C5_uri_vs_string_projection :
    FieldType.to_rust_typename .uri = FieldType.to_rust_typename .string ∧
    FieldType.to_csharp_typename .string = some "string" ∧
    FieldType.to_csharp_typename .uri = none ∧
    FieldType.to_go_typename .string = some "string" ∧
    FieldType.to_go_typename .uri = none ∧
    FieldType.to_kotlin_typename .string = some "String" ∧
    FieldType.to_kotlin_typename .uri = none ∧
    FieldType.to_js_typename .string = some "string" ∧
    FieldType.to_js_typename .uri = none :=
  ⟨rfl, rfl, rfl, rfl, rfl, rfl, rfl, rfl, rfl⟩

/-- Claim C6: for an array-typed schema node with a single item schema
(and no additional-items clause), the resolver yields `Set(inner)`
exactly when `uniqueItems` is `true` and `List(inner)` otherwise, with
the same inner type; and every target language's projector maps
`Set(inner)` and `List(inner)` to byte-for-byte identical strings. -/
theorem C6_set_list_unique_items (s : Schema) (t : FieldType) (fmt refr : Option String)
    (uniq : Option Bool) (objv : Option ObjectValidation)
    (h : FieldType.from_schema s = .ok t) :
    FieldType.from_schema_object
        (.mk (some (.single .array)) fmt refr (some (.mk none (some (.single s)) uniq)) objv) =
      .ok (if uniq = some true then .set t else .list t) ∧
    ∀ inner : FieldType,
      FieldType.to_csharp_typename (.set inner) = FieldType.to_csharp_typename (.list inner) ∧
      FieldType.to_go_typename (.set inner) = FieldType.to_go_typename (.list inner) ∧
      FieldType.to_kotlin_typename (.set inner) = FieldType.to_kotlin_typename (.list inner) ∧
      FieldType.to_js_typename (.set inner) = FieldType.to_js_typename (.list inner) ∧
      FieldType.to_rust_typename (.set inner) = FieldType.to_rust_typename (.list inner) := by
  constructor
  · rw [FieldType.from_schema_object, h]
    split <;> rename_i heq
    · exact absurd heq (by simp)
    · obtain rfl : t = _ := by injection heq
      split <;> rfl
  · intro inner
    exact ⟨rfl, rfl, rfl, rfl, rfl⟩

/-- Claim C6 witness: a concrete string-item array schema with
`uniqueItems: true` resolves to `Set(String)`, and the C# projector
treats `Set(String)` and `List(String)` identically. -/
theorem C6_witness :
    FieldType.from_schema_object
        (.mk (some (.single .array)) none none
          (some (.mk none
            (some (.single (.object (.mk (some (.single .string)) none none none none))))
            (some true))) none) =
      .ok (if (some true : Option Bool) = some true then .set .string else .list .string) ∧
    FieldType.to_csharp_typename (.set .string) = FieldType.to_csharp_typename (.list .string) :=
  ⟨(C6_set_list_unique_items (.object (.mk (some (.single .string)) none none none none))
      .string none none (some true) none rfl).1,
    ((C6_set_list_unique_items (.object (.mk (some (.single .string)) none none none none))
      .string none none (some true) none rfl).2 .string).1⟩

/-- Claim C7: an operation whose identifier is absent, does not split
into exactly three dot-separated segments, or whose first segment is
not `"v1"`, is skipped (`.ok none`): it is absent from the `Api` and no
fatal error is raised. -/
theorem C7_invalid_op_id_skipped (path method : String) (op : OpenapiOperation)
    (h : op.operation_id = none ∨
      ∃ op_id, op.operation_id = some op_id ∧
        ((splitDot op_id).length ≠ 3 ∨ (splitDot op_id).head? ≠ some "v1")) :
    Operation.from_openapi path method op = .ok none := by
  rcases h with h | ⟨op_id, hid, hbad⟩
  · simp only [Operation.from_openapi, h]
  · rcases hs : splitDot op_id with _ | ⟨a, _ | ⟨b, _ | ⟨c, _ | ⟨d, l⟩⟩⟩⟩
    · simp [Operation.from_openapi, hid, hs]
    · simp [Operation.from_openapi, hid, hs]
    · simp [Operation.from_openapi, hid, hs]
    · rw [hs] at hbad
      rcases hbad with hlen | hhead
      · exact absurd rfl hlen
      · have ha : a ≠ "v1" := fun hv => hhead (by simp [hv])
        simp [Operation.from_openapi, hid, hs, ha]
    · simp [Operation.from_openapi, hid, hs]

/-- Claim C7 witness: the spec's own example `v2.foo.get` (wrong version
tag) is skipped without a fatal error. -/
theorem C7_witness :
    Operation.from_openapi "/foo" "get"
      { description := none, operation_id := some "v2.foo.get", parameters := [],
        request_body := none, responses := none } = .ok none :=
  C7_invalid_op_id_skipped "/foo" "get" _
    (Or.inr ⟨"v2.foo.get", rfl, Or.inr (by decide)⟩)

/-- Claim C8 counterexample: `enforce_string_parameter` accepts a
parameter whose inline schema declares instance type `string` together
with a further constraint (`format: "uuid"`), so the helper does not
succeed "exactly" on string schemas with no other constraint. -/
theorem C8_counterexample :
    enforce_string_parameter
      { name := "p", description := none, required := true,
        format := .Schema ⟨.object (.mk (some (.single .string)) (some "uuid") none none none)⟩ } =
      .ok () ∧
    SchemaObject.format (.mk (some (.single .string)) (some "uuid") none none none) =
      some "uuid" :=
  ⟨rfl, rfl⟩

/-- Claim C8 (amended): the shared parameter-schema validation helper
succeeds exactly on parameters whose format is an inline, non-boolean
schema whose `instance_type` is exactly the single instance type
`string` — regardless of any other constraint (e.g. a `format`) the
schema may declare — and returns a descriptive error for every other
shape. -/
theorem C8_enforce_string_parameter_iff (pd : ParameterData) :
    enforce_string_parameter pd = .ok () ↔
      ∃ s, pd.format = .Schema s ∧
        ∃ obj, s.json_schema = .object obj ∧
          obj.instance_type = some (.single .string) := by
  constructor
  · intro h
    rw [enforce_string_parameter] at h
    split at h <;> rename_i hfmt
    · cases h
    · rename_i s
      split at h <;> rename_i hjs
      · cases h
      · rename_i obj
        split at h <;> rename_i hit
        · exact ⟨s, hfmt, obj, hjs, hit⟩
        · cases h
  · rintro ⟨⟨js⟩, hfmt, obj, hjs, hit⟩
    obtain rfl : js = .object obj := hjs
    simp [enforce_string_parameter, hfmt, hit]

/-- Destructuring a successful `Operation::from_openapi` run: the
identifier was present, split as `v1.<resource>.<op>`, the parameter
loop, request-body and response-body extraction all succeeded, and the
returned operation record is assembled from their results. -/
theorem from_openapi_ok_some {path method : String} {op : OpenapiOperation}
    {res : String} {o : Operation}
    (h : Operation.from_openapi path method op = .ok (some (res, o))) :
    ∃ op_id op_name path_params header_params query_params req_name resp_name,
      op.operation_id = some op_id ∧
      splitDot op_id = ["v1", res, op_name] ∧
      process_params op.parameters [] [] [] = .ok (some (path_params, header_params, query_params)) ∧
      request_body_name op.request_body = .ok req_name ∧
      responses_schema_name op.responses = .ok resp_name ∧
      o = { id := op_id, name := op_name, description := op.description,
            method := method, path := path, path_params := path_params,
            header_params := header_params, query_params := query_params,
            request_body_schema_name := req_name,
            response_body_schema_name := resp_name } := by
  rcases hid : op.operation_id with _ | op_id
  · rw [show Operation.from_openapi path method op = .ok none by
      simp [Operation.from_openapi, hid]] at h
    exact absurd h (by simp)
  rcases hs : splitDot op_id with _ | ⟨version, _ | ⟨res_name, _ | ⟨op_name, _ | _⟩⟩⟩
  · rw [show Operation.from_openapi path method op = .ok none by
      simp [Operation.from_openapi, hid, hs]] at h
    exact absurd h (by simp)
  · rw [show Operation.from_openapi path method op = .ok none by
      simp [Operation.from_openapi, hid, hs]] at h
    exact absurd h (by simp)
  · rw [show Operation.from_openapi path method op = .ok none by
      simp [Operation.from_openapi, hid, hs]] at h
    exact absurd h (by simp)
  case cons.cons.cons.cons =>
    rw [show Operation.from_openapi path method op = .ok none by
      simp [Operation.from_openapi, hid, hs]] at h
    exact absurd h (by simp)
  by_cases hv : version = "v1"
  swap
  · rw [show Operation.from_openapi path method op = .ok none by
      simp [Operation.from_openapi, hid, hs, hv]] at h
    exact absurd h (by simp)
  subst hv
  rcases hparams : process_params op.parameters [] [] [] with e | ppo
  · rw [show Operation.from_openapi path method op = .error e by
      simp [Operation.from_openapi, hid, hs, hparams]] at h
    exact absurd h (by simp)
  rcases ppo with _ | ⟨⟨path_params, header_params, query_params⟩⟩
  · rw [show Operation.from_openapi path method op = .ok none by
      simp [Operation.from_openapi, hid, hs, hparams]] at h
    exact absurd h (by simp)
  rcases hreq : request_body_name op.request_body with e | req_name
  · rw [show Operation.from_openapi path method op = .error e by
      simp [Operation.from_openapi, hid, hs, hparams, hreq]] at h
    exact absurd h (by simp)
  rcases hresp : responses_schema_name op.responses with e | resp_name
  · rw [show Operation.from_openapi path method op = .error e by
      simp [Operation.from_openapi, hid, hs, hparams, hreq, hresp]] at h
    exact absurd h (by simp)
  rw [show Operation.from_openapi path method op =
      .ok (some (res_name,
        { id := op_id, name := op_name, description := op.description,
          method := method, path := path, path_params := path_params,
          header_params := header_params, query_params := query_params,
          request_body_schema_name := req_name,
          response_body_schema_name := resp_name })) by
    simp [Operation.from_openapi, hid, hs, hparams, hreq, hresp]] at h
  rw [Except.ok.injEq, Option.some.injEq, Prod.mk.injEq] at h
  obtain ⟨rfl, rfl⟩ := h
  exact ⟨op_id, op_name, path_params, header_params, query_params,
    req_name, resp_name, rfl, hs, rfl, rfl, rfl, rfl⟩

/-- Claim C9: an operation node that declares no responses object at all
still extracts successfully (the response step yields `.ok none`
without any check), and any operation extracted from such a node has
`response_body_schema_name = none`; the at-least-one-success-response
requirement is enforced only when a responses object is present. -/
theorem C9_missing_responses_ok (path method : String) (op : OpenapiOperation)
    (hresp : op.responses = none) :
    responses_schema_name op.responses = .ok none ∧
    ∀ res o, Operation.from_openapi path method op = .ok (some (res, o)) →
      o.response_body_schema_name = none := by
  constructor
  · rw [hresp]
    rfl
  · intro res o h
    obtain ⟨op_id, op_name, pp, hp, qp, req_name, resp_name,
      _, _, _, _, hrespn, rfl⟩ := from_openapi_ok_some h
    rw [hresp, show responses_schema_name none = Except.ok none from rfl] at hrespn
    injection hrespn with h2
    simp [h2.symm]

/-- Claim C9 witness: a concrete operation with no responses object is
extracted successfully and carries no response-body schema name. -/
theorem C9_witness :
    responses_schema_name c9op.responses = .ok none ∧
    Operation.from_openapi "/p" "get" c9op = .ok (some ("a", c9out)) ∧
    c9out.response_body_schema_name = none :=
  ⟨(C9_missing_responses_ok "/p" "get" c9op rfl).1, rfl,
    (C9_missing_responses_ok "/p" "get" c9op rfl).2 "a" c9out rfl⟩

/-- Inversion for one step of the parameter loop: a run over `p :: rest`
that ends in success means `p` was an accepted path, header or query
parameter and the rest of the run succeeded with the accordingly
extended accumulators. -/
theorem process_params_cons_ok_some {p : ReferenceOr Parameter}
    {rest : List (ReferenceOr Parameter)} {pps : List String}
    {hps : List HeaderParam} {qps : List QueryParam}
    {out : List String × List HeaderParam × List QueryParam}
    (h : process_params (p :: rest) pps hps qps = .ok (some out)) :
    (∃ pd, p = .Item (.Path pd .Simple) ∧ pd.required = true ∧
      enforce_string_parameter pd = .ok () ∧
      process_params rest (pps ++ [pd.name]) hps qps = .ok (some out)) ∨
    (∃ pd, p = .Item (.Header pd .Simple) ∧ enforce_string_parameter pd = .ok () ∧
      process_params rest pps (hps ++ [{ name := pd.name, required := pd.required }]) qps =
        .ok (some out)) ∨
    (∃ pd t, p = .Item (.Query pd false .Form none) ∧
      FieldType.from_openapi pd.format = .ok t ∧
      process_params rest pps hps
        (qps ++ [{ name := pd.name, description := pd.description,
                   required := pd.required, r_type := t }]) = .ok (some out)) := by
  rcases p with r | pp
  · simp [process_params] at h
  rcases pp with ⟨qd, ar, qsty, aev⟩ | ⟨hd, hsty⟩ | ⟨pdd, psty⟩ | ⟨cd, csty⟩
  · -- query parameter
    cases ar
    · cases qsty
      · cases aev
        · simp only [process_params] at h
          rcases hft : FieldType.from_openapi qd.format with e | t <;> rw [hft] at h
          · simp at h
          · exact Or.inr (Or.inr ⟨qd, t, rfl, hft, h⟩)
        · simp [process_params] at h
      · simp [process_params] at h
      · simp [process_params] at h
      · simp [process_params] at h
    · simp [process_params] at h
  · -- header parameter
    cases hsty
    simp only [process_params] at h
    rcases hes : enforce_string_parameter hd with e | u <;> rw [hes] at h
    · simp at h
    · exact Or.inr (Or.inl ⟨hd, rfl, hes, h⟩)
  · -- path parameter
    cases psty
    · simp [process_params] at h
    · simp [process_params] at h
    · simp only [process_params] at h
      rcases hr : pdd.required with _ | _ <;> rw [hr] at h
      · simp at h
      · simp only [Bool.not_true, Bool.false_eq_true, if_false] at h
        rcases hes : enforce_string_parameter pdd with e | u <;> rw [hes] at h
        · simp at h
        · exact Or.inl ⟨pdd, rfl, hr, hes, h⟩
  · -- cookie parameter
    simp [process_params] at h

/-- Soundness of the parameter loop for path parameters: every name in
the resulting `path_params` either was already in the accumulator or
stems from a declared required, string-schema, simple-style path
parameter of that name. -/
theorem process_params_path_sound (params : List (ReferenceOr Parameter)) :
    ∀ (pps : List String) (hps : List HeaderParam) (qps : List QueryParam)
      {pps2 : List String} {hps2 : List HeaderParam} {qps2 : List QueryParam},
      process_params params pps hps qps = .ok (some (pps2, hps2, qps2)) →
      ∀ {n : String}, n ∈ pps2 →
        n ∈ pps ∨
          ∃ pd, ReferenceOr.Item (Parameter.Path pd .Simple) ∈ params ∧
            pd.name = n ∧ pd.required = true ∧ enforce_string_parameter pd = .ok () := by
  induction params with
  | nil =>
    intro pps hps qps pps2 hps2 qps2 h n hn
    simp only [process_params, Except.ok.injEq, Option.some.injEq, Prod.mk.injEq] at h
    obtain ⟨rfl, -, -⟩ := h
    exact Or.inl hn
  | cons p rest ih =>
    intro pps hps qps pps2 hps2 qps2 h n hn
    rcases process_params_cons_ok_some h with
      ⟨pd, rfl, hr, hes, h2⟩ | ⟨pd, rfl, hes, h2⟩ | ⟨pd, t, rfl, hft, h2⟩
    · rcases ih _ _ _ h2 hn with hacc | ⟨pd2, hmem, hrest⟩
      · rcases List.mem_append.mp hacc with hl | hr2
        · exact Or.inl hl
        · refine Or.inr ⟨pd, List.Mem.head _, ?_, hr, hes⟩
          cases hr2 with
          | head => rfl
          | tail _ h3 => cases h3
      · exact Or.inr ⟨pd2, List.Mem.tail _ hmem, hrest⟩
    · rcases ih _ _ _ h2 hn with hacc | ⟨pd2, hmem, hrest⟩
      · exact Or.inl hacc
      · exact Or.inr ⟨pd2, List.Mem.tail _ hmem, hrest⟩
    · rcases ih _ _ _ h2 hn with hacc | ⟨pd2, hmem, hrest⟩
      · exact Or.inl hacc
      · exact Or.inr ⟨pd2, List.Mem.tail _ hmem, hrest⟩

/-- Claim C2 counterexample: the extractor never cross-checks the path
template against the declared parameters: the path template
`/foo/(id)` (with braces) names path parameter `id`, yet an operation
declaring no parameters at all is extracted successfully with an empty
`path_params` list, so `id` does not appear in `path_params` at all. -/
theorem C2_counterexample :
    Operation.from_openapi "/foo/\x7bid\x7d" "get" c2op = .ok (some ("foo", c2out)) ∧
    Api.new c2paths = .ok c2api ∧
    pathTemplateParams "/foo/\x7bid\x7d" = ["id"] ∧
    c2out.path_params = [] :=
  ⟨rfl, rfl, by decide, rfl⟩

/-- Claim C2 (amended): the path template is not checked against the
declared parameters; what holds instead is that every name in an
extracted operation's `path_params` stems from a declared required,
string-schema, simple-style path parameter of that name.  (A declared
non-required path parameter is a fatal assertion, not a warning —
see C3.) -/
theorem C2_path_params_are_validated (path method : String) (op : OpenapiOperation)
    (res : String) (o : Operation)
    (h : Operation.from_openapi path method op = .ok (some (res, o))) :
    ∀ n ∈ o.path_params,
      ∃ pd, ReferenceOr.Item (Parameter.Path pd .Simple) ∈ op.parameters ∧
        pd.name = n ∧ pd.required = true ∧ enforce_string_parameter pd = .ok () := by
  obtain ⟨op_id, op_name, pp, hp, qp, reqn, respn, hid, hs, hparams, hreq, hresp, rfl⟩ :=
    from_openapi_ok_some h
  intro n hn
  have hn2 : n ∈ pp := hn
  rcases process_params_path_sound op.parameters [] [] [] hparams hn2 with h0 | hex
  · cases h0
  · exact hex

/-- Claim C2 witness: the concrete operation `c2wop` with one declared
required string path parameter extracts to path_params `["id"]`, and
the name `id` indeed stems from such a declared parameter. -/
theorem C2_witness :
    ∃ pd, ReferenceOr.Item (Parameter.Path pd .Simple) ∈ c2wop.parameters ∧
      pd.name = "id" ∧ pd.required = true ∧ enforce_string_parameter pd = .ok () :=
  C2_path_params_are_validated "/foo" "get" c2wop "foo" c2wout rfl "id"
    (List.Mem.head _)

/-- Claim C3 counterexample: an operation declaring a path parameter
that is string-typed but not required does not skip the operation with
`.ok none`; it trips the `assert!(parameter_data.required, "no optional
path params")` panic, which is fatal for the whole compilation. -/
theorem C3_counterexample :
    Operation.from_openapi "/foo" "get" c3op = .error "no optional path params" :=
  rfl

/-- If some declared simple-style path parameter fails the string check
(and no declared simple-style path parameter is optional, which would
panic first), the whole parameter loop returns the skip signal. -/
theorem process_params_bad_path (params : List (ReferenceOr Parameter)) :
    ∀ (pps : List String) (hps : List HeaderParam) (qps : List QueryParam),
      (∀ pd, ReferenceOr.Item (Parameter.Path pd .Simple) ∈ params → pd.required = true) →
      ∀ pd0 e0, ReferenceOr.Item (Parameter.Path pd0 .Simple) ∈ params →
        enforce_string_parameter pd0 = .error e0 →
        process_params params pps hps qps = .ok none := by
  induction params with
  | nil =>
    intro _ _ _ _ pd0 e0 hmem _
    cases hmem
  | cons p rest ih =>
    intro pps hps qps hreq pd0 e0 hmem herr
    cases hmem with
    | head =>
      have hr : pd0.required = true := hreq pd0 (List.Mem.head _)
      simp [process_params, hr, herr]
    | tail _ hm =>
      have hreq2 : ∀ pd, ReferenceOr.Item (Parameter.Path pd .Simple) ∈ rest →
          pd.required = true :=
        fun pd hm2 => hreq pd (List.Mem.tail _ hm2)
      rcases p with r | pp
      · simp [process_params]
      rcases pp with ⟨qd, ar, qsty, aev⟩ | ⟨hd, hsty⟩ | ⟨pdd, psty⟩ | ⟨cd, csty⟩
      · cases ar
        · cases qsty
          · cases aev
            · simp only [process_params]
              rcases hft : FieldType.from_openapi qd.format with e | t
              · rfl
              · exact ih pps hps _ hreq2 pd0 e0 hm herr
            · simp [process_params]
          · simp [process_params]
          · simp [process_params]
          · simp [process_params]
        · simp [process_params]
      · cases hsty
        simp only [process_params]
        rcases hes : enforce_string_parameter hd with e | u
        · rfl
        · exact ih pps _ qps hreq2 pd0 e0 hm herr
      · cases psty
        · simp [process_params]
        · simp [process_params]
        · have hr : pdd.required = true := hreq pdd (List.Mem.head _)
          simp only [process_params, hr, Bool.not_true, Bool.false_eq_true, if_false]
          rcases hes : enforce_string_parameter pdd with e | u
          · rfl
          · exact ih _ hps qps hreq2 pd0 e0 hm herr
      · simp [process_params]

/-- Claim C3 (amended): an operation declaring a required path parameter
that is not string-typed is dropped whole — extraction returns the skip
signal `.ok none`, not a fatal error — provided no declared path
parameter is optional (an optional path parameter is a fatal assertion
instead, as the counterexample shows). -/
theorem C3_nonstring_path_param_drops_operation (path method : String)
    (op : OpenapiOperation)
    (hreq : ∀ pd, ReferenceOr.Item (Parameter.Path pd .Simple) ∈ op.parameters →
      pd.required = true)
    (pd0 : ParameterData) (e0 : String)
    (hmem : ReferenceOr.Item (Parameter.Path pd0 .Simple) ∈ op.parameters)
    (herr : enforce_string_parameter pd0 = .error e0) :
    Operation.from_openapi path method op = .ok none := by
  have hpp := process_params_bad_path op.parameters [] [] [] hreq pd0 e0 hmem herr
  rcases hid : op.operation_id with _ | op_id
  · simp [Operation.from_openapi, hid]
  rcases hs : splitDot op_id with _ | ⟨a, _ | ⟨b, _ | ⟨c, _ | ⟨d, l⟩⟩⟩⟩ <;>
    simp [Operation.from_openapi, hid, hs, hpp]

/-- Claim C3 witness: a concrete operation with a required integer-typed
path parameter is skipped (`.ok none`), not fatally rejected. -/
theorem C3_witness : Operation.from_openapi "/foo" "get" c3wop = .ok none :=
  C3_nonstring_path_param_drops_operation "/foo" "get" c3wop
    (by
      intro pd hm
      cases hm with
      | head => rfl
      | tail _ h2 => cases h2)
    { name := "id", description := none, required := true, format := intParamSchema }
    "unsupported path parameter type" (List.Mem.head _) rfl

/-- If the `assert_eq!` loop over the remaining success responses
succeeds, the result is the first schema name and every remaining
response yields exactly that name. -/
theorem assert_responses_agree_ok (sn : Option String) :
    ∀ (l : List (StatusCode × ReferenceOr Response)) {v : Option String},
      assert_responses_agree sn l = .ok v →
      v = sn ∧ ∀ p ∈ l, response_body_schema_name p.2 = .ok sn := by
  intro l
  induction l with
  | nil =>
    intro v h
    refine ⟨?_, fun p hp => by cases hp⟩
    injection h with h2
    exact h2.symm
  | cons p rest ih =>
    intro v h
    obtain ⟨st, resp⟩ := p
    rcases hr : response_body_schema_name resp with e | n
    · rw [show assert_responses_agree sn ((st, resp) :: rest) = .error e by
        simp [assert_responses_agree, hr]] at h
      exact absurd h (by simp)
    · by_cases hn : n = sn
      · subst hn
        rw [show assert_responses_agree n ((st, resp) :: rest) = assert_responses_agree n rest by
          simp [assert_responses_agree, hr]] at h
        obtain ⟨hv, hall⟩ := ih h
        refine ⟨hv, fun q hq => ?_⟩
        cases hq with
        | head => exact hr
        | tail _ hq2 => exact hall q hq2
      · rw [show assert_responses_agree sn ((st, resp) :: rest) =
            .error "assertion failed: schema_name == response_body_schema_name(resp)" by
          simp [assert_responses_agree, hr, hn]] at h
        exact absurd h (by simp)

/-- Conversely, if every remaining success response yields the first
schema name, the `assert_eq!` loop succeeds with that name. -/
theorem assert_responses_agree_all (sn : Option String) :
    ∀ (l : List (StatusCode × ReferenceOr Response)),
      (∀ p ∈ l, response_body_schema_name p.2 = .ok sn) →
      assert_responses_agree sn l = .ok sn := by
  intro l
  induction l with
  | nil => intro _; rfl
  | cons p rest ih =>
    intro hall
    obtain ⟨st, resp⟩ := p
    have hr : response_body_schema_name resp = .ok sn := hall (st, resp) (List.Mem.head _)
    simp [assert_responses_agree, hr, ih (fun q hq => hall q (List.Mem.tail _ hq))]

/-- A successful response extraction means every success response agrees
on the extracted schema name. -/
theorem extract_response_name_ok {r : Responses} {v : Option String}
    (h : extract_response_name r = .ok v) :
    ∀ p ∈ success_responses r, response_body_schema_name p.2 = .ok v := by
  rcases hdef : r.default.isSome with _ | _
  case true =>
    rw [show extract_response_name r = .error "assertion failed: r.default == None" by
      simp [extract_response_name, hdef]] at h
    exact absurd h (by simp)
  rcases hext : r.extensions.isEmpty with _ | _
  case false =>
    rw [show extract_response_name r = .error "assertion failed: r.extensions.is_empty()" by
      simp [extract_response_name, hdef, hext]] at h
    exact absurd h (by simp)
  rcases hsr : success_responses r with _ | ⟨⟨st, resp⟩, rest⟩
  · rw [show extract_response_name r = .error "every operation must have one success response" by
      simp [extract_response_name, hdef, hext, hsr]] at h
    exact absurd h (by simp)
  · rcases hr : response_body_schema_name resp with e | sn
    · rw [show extract_response_name r = .error e by
        simp [extract_response_name, hdef, hext, hsr, hr]] at h
      exact absurd h (by simp)
    · rw [show extract_response_name r = assert_responses_agree sn rest by
        simp [extract_response_name, hdef, hext, hsr, hr]] at h
      obtain ⟨rfl, hall⟩ := assert_responses_agree_ok sn rest h
      intro p hp
      cases hp with
      | head => exact hr
      | tail _ hp2 => exact hall p hp2

/-- If the responses object passes the default/extensions assertions,
has at least one success response, and all success responses agree on a
schema name, extraction succeeds with that name. -/
theorem extract_response_name_agrees (r : Responses) (hd : r.default = none)
    (he : r.extensions = []) {v : Option String}
    (hne : success_responses r ≠ [])
    (hall : ∀ p ∈ success_responses r, response_body_schema_name p.2 = .ok v) :
    extract_response_name r = .ok v := by
  rcases hsr : success_responses r with _ | ⟨⟨st, resp⟩, rest⟩
  · exact absurd hsr hne
  · have hr : response_body_schema_name resp = .ok v := by
      refine hall (st, resp) ?_
      rw [hsr]
      exact List.Mem.head _
    have hrest : ∀ p ∈ rest, response_body_schema_name p.2 = .ok v := by
      intro p hp
      refine hall p ?_
      rw [hsr]
      exact List.Mem.tail _ hp
    simp [extract_response_name, hd, he, hsr, hr, assert_responses_agree_all v rest hrest]

/-- Claim C4: (a) a responses object with no success response at all is
a fatal failure; (b) two success responses whose referenced body schema
names are computed and differ make the extraction fatal; (c) if the
responses object passes its assertions and all success responses agree
(including the all-have-no-body case, `v = none`), extraction succeeds
and yields the agreed value. -/
theorem C4_success_response_agreement (r : Responses) :
    (success_responses r = [] → ∃ e, extract_response_name r = .error e) ∧
    (∀ p q n1 n2, p ∈ success_responses r → q ∈ success_responses r →
      response_body_schema_name p.2 = .ok n1 →
      response_body_schema_name q.2 = .ok n2 → n1 ≠ n2 →
      ∃ e, extract_response_name r = .error e) ∧
    (∀ v, r.default = none → r.extensions = [] → success_responses r ≠ [] →
      (∀ p ∈ success_responses r, response_body_schema_name p.2 = .ok v) →
      extract_response_name r = .ok v) := by
  refine ⟨?_, ?_, ?_⟩
  · intro hsr
    rcases hdef : r.default.isSome with _ | _
    case true =>
      exact ⟨"assertion failed: r.default == None", by simp [extract_response_name, hdef]⟩
    rcases hext : r.extensions.isEmpty with _ | _
    case false =>
      exact ⟨"assertion failed: r.extensions.is_empty()",
        by simp [extract_response_name, hdef, hext]⟩
    case true =>
      exact ⟨"every operation must have one success response",
        by simp [extract_response_name, hdef, hext, hsr]⟩
  · intro p q n1 n2 hp hq h1 h2 hne
    rcases hx : extract_response_name r with e | v
    · exact ⟨e, rfl⟩
    · exfalso
      have hall := extract_response_name_ok hx
      have e1 : n1 = v := by
        have := (h1.symm.trans (hall p hp))
        injection this
      have e2 : n2 = v := by
        have := (h2.symm.trans (hall q hq))
        injection this
      exact hne (e1.trans e2.symm)
  · intro v hd he hne hall
    exact extract_response_name_agrees r hd he hne hall

/-- Claim C4 witness: a concrete responses object with a single success
response (200) referencing component `Foo` extracts `some "Foo"`. -/
theorem C4_witness : extract_response_name c4resp = .ok (some "Foo") :=
  (C4_success_response_agreement c4resp).2.2 (some "Foo") rfl rfl
    (fun h => List.noConfusion h)
    (by
      intro p hp
      have hp2 : p ∈ c4successList := hp
      rw [show c4successList =
        [(.Code 200, .Item { content := [("application/json", fooRefMediaType)], extensions := [] })]
        from rfl] at hp2
      cases hp2 with
      | head => rfl
      | tail _ h2 => cases h2)

/-- Removing one key leaves lookups of all other keys unchanged. -/
theorem assocLookup_removeFirst_ne {α : Type} {m n : String} (hne : m ≠ n) :
    ∀ (tbl : List (String × α)),
      assocLookup m (removeFirst n tbl) = assocLookup m tbl := by
  intro tbl
  induction tbl with
  | nil => rfl
  | cons p rest ih =>
    obtain ⟨k, v⟩ := p
    by_cases hk : k = n
    · subst hk
      rw [show removeFirst k ((k, v) :: rest) = rest by simp [removeFirst]]
      rw [show assocLookup m ((k, v) :: rest) = assocLookup m rest by
        simp [assocLookup, hne.symm]]
    · rw [show removeFirst n ((k, v) :: rest) = (k, v) :: removeFirst n rest by
        simp [removeFirst, hk]]
      by_cases hkm : k = m
      · simp [assocLookup, hkm]
      · simp [assocLookup, hkm, ih]

/-- Membership in the output of the `Api::types` filter loop: for a
duplicate-free name list, a name gets an entry exactly when it is in
the list and the raw table holds a non-boolean (object) schema under
it. -/
theorem typesGo_mem (name : String) :
    ∀ (names : List String) (tbl : List (String × OpenapiSchemaObject)),
      names.Nodup →
      ((∃ so, (name, so) ∈ typesGo names tbl) ↔
        (name ∈ names ∧
          ∃ s so, assocLookup name tbl = some s ∧ s.json_schema = Schema.object so)) := by
  intro names
  induction names with
  | nil =>
    intro tbl _
    simp [typesGo]
  | cons n rest ih =>
    intro tbl hnd
    obtain ⟨hn, hnd2⟩ := List.nodup_cons.mp hnd
    rcases hl : assocLookup n tbl with _ | s
    · rw [show typesGo (n :: rest) tbl = typesGo rest tbl by simp [typesGo, hl]]
      rw [ih tbl hnd2]
      constructor
      · rintro ⟨hmem, hobj⟩
        exact ⟨List.Mem.tail _ hmem, hobj⟩
      · rintro ⟨hmem, hobj⟩
        refine ⟨?_, hobj⟩
        rcases List.mem_cons.mp hmem with rfl | hm
        · obtain ⟨s, so, hs, -⟩ := hobj
          rw [hl] at hs
          cases hs
        · exact hm
    · rcases hjs : s.json_schema with b | so0
      · rw [show typesGo (n :: rest) tbl = typesGo rest (removeFirst n tbl) by
          simp [typesGo, hl, hjs]]
        rw [ih _ hnd2]
        by_cases hne : name = n
        · subst hne
          constructor
          · rintro ⟨hmem, -⟩
            exact absurd hmem hn
          · rintro ⟨-, s2, so2, hs2, hjs2⟩
            rw [hl] at hs2
            injection hs2 with h3
            subst h3
            rw [hjs] at hjs2
            cases hjs2
        · rw [assocLookup_removeFirst_ne hne]
          constructor
          · rintro ⟨hmem, hobj⟩
            exact ⟨List.Mem.tail _ hmem, hobj⟩
          · rintro ⟨hmem, hobj⟩
            refine ⟨?_, hobj⟩
            rcases List.mem_cons.mp hmem with rfl | hm
            · exact absurd rfl hne
            · exact hm
      · rw [show typesGo (n :: rest) tbl = (n, so0) :: typesGo rest (removeFirst n tbl) by
          simp [typesGo, hl, hjs]]
        by_cases hne : name = n
        · subst hne
          constructor
          · rintro -
            exact ⟨List.Mem.head _, s, so0, hl, hjs⟩
          · rintro -
            exact ⟨so0, List.Mem.head _⟩
        · constructor
          · rintro ⟨so, hmem⟩
            rcases List.mem_cons.mp hmem with heq | hm
            · exact absurd (congrArg Prod.fst heq) hne
            · have := (ih (removeFirst n tbl) hnd2).mp ⟨so, hm⟩
              rw [assocLookup_removeFirst_ne hne] at this
              exact ⟨List.Mem.tail _ this.1, this.2⟩
          · rintro ⟨hmem, hobj⟩
            rcases List.mem_cons.mp hmem with rfl | hm
            · exact absurd rfl hne
            · rw [← assocLookup_removeFirst_ne hne tbl] at hobj
              obtain ⟨so, hso⟩ := (ih (removeFirst n tbl) hnd2).mpr ⟨hm, hobj⟩
              exact ⟨so, List.Mem.tail _ hso⟩

/-- Membership in the de-duplicated sorted name set is membership in the
original name list. -/
theorem mem_sortedDedup {a : String} {l : List String} : a ∈ sortedDedup l ↔ a ∈ l := by
  unfold sortedDedup
  rw [List.mem_dedup]
  exact (List.perm_insertionSort _ _).mem_iff

/-- A name is a referenced component exactly when some operation of some
resource references it as its request body. -/
theorem mem_referenced_components (api : Api) (name : String) :
    name ∈ api.referenced_components ↔
      ∃ r, r ∈ api.resources ∧ ∃ o, o ∈ r.2.operations ∧
        o.request_body_schema_name = some name := by
  unfold Api.referenced_components
  rw [List.mem_filterMap]
  constructor
  · rintro ⟨o, ho, hreq⟩
    rw [List.mem_flatten] at ho
    obtain ⟨ops, hops, ho2⟩ := ho
    rw [List.mem_map] at hops
    obtain ⟨r, hr, rfl⟩ := hops
    exact ⟨r, hr, o, ho2, hreq⟩
  · rintro ⟨r, hr, o, ho, hreq⟩
    refine ⟨o, ?_, hreq⟩
    rw [List.mem_flatten]
    exact ⟨r.2.operations, List.mem_map.mpr ⟨r, hr, rfl⟩, ho⟩

/-- Claim C1 counterexample: an `Api` whose only operation references
component `Foo` as its response body (and has no request body) yields
an empty `Types` map, even though `Foo` is present in the raw table as
an object schema — response-body schema names are not collected by
`Api::referenced_components`. -/
theorem C1_counterexample :
    (c1api.types c1schemas).toMap = [] ∧
    c1respOp.response_body_schema_name = some "Foo" ∧
    assocLookup "Foo" c1schemas = some ⟨.object c1fooObj⟩ :=
  ⟨rfl, rfl, rfl⟩

/-- Claim C1 (amended): the output `Types` map contains exactly the
named component schemas referenced as a request-body schema by at least
one operation of the built `Api` (when the name is found in the raw
table as a non-boolean schema); response-body schema names are not
collected, and no name unreferenced as a request body appears. -/
theorem C1_types_are_request_body_references (api : Api)
    (schemas : List (String × OpenapiSchemaObject)) (name : String) :
    (∃ so, (name, so) ∈ (api.types schemas).toMap) ↔
      ((∃ r, r ∈ api.resources ∧ ∃ o, o ∈ r.2.operations ∧
          o.request_body_schema_name = some name) ∧
        ∃ s so, assocLookup name schemas = some s ∧ s.json_schema = Schema.object so) := by
  have h1 := typesGo_mem name (sortedDedup api.referenced_components) schemas
    (List.nodup_dedup _)
  rw [show (api.types schemas).toMap =
      typesGo (sortedDedup api.referenced_components) schemas from rfl]
  rw [h1, mem_sortedDedup, mem_referenced_components]

/-- Claim C1 witness: a concrete `Api` whose only operation references
`Bar` as its request body, with `Bar` present in the raw table as an
object schema, does produce a `Bar` entry in `Types`. -/
theorem C1_witness : ∃ so, ("Bar", so) ∈ (c1wapi.types c1wschemas).toMap :=
  (C1_types_are_request_body_references c1wapi c1wschemas "Bar").mpr
    ⟨⟨("foo", { name := "foo", operations := [c1reqOp] }), List.Mem.head _,
      c1reqOp, List.Mem.head _, rfl⟩,
      ⟨.object c1barObj⟩, c1barObj, rfl, rfl⟩

/-- A successfully extracted operation's identifier has the returned
resource name as its second dot-segment. -/
theorem from_openapi_second_segment {path method : String} {op : OpenapiOperation}
    {res : String} {o : Operation}
    (h : Operation.from_openapi path method op = .ok (some (res, o))) :
    (splitDot o.id).get? 1 = some res := by
  obtain ⟨op_id, op_name, pp, hp, qp, reqn, respn, hid, hs, -, -, -, rfl⟩ :=
    from_openapi_ok_some h
  show (splitDot op_id).get? 1 = some res
  rw [hs]
  rfl

/-- Inserting an operation whose identifier carries `res_name` as its
second segment preserves the resource-map invariant. -/
theorem resourcesWellFormed_insert {res_name : String} {o : Operation}
    (ho : (splitDot o.id).get? 1 = some res_name) :
    ∀ {rs : List (String × Resource)}, resourcesWellFormed rs →
      resourcesWellFormed (insertOperation rs res_name o) := by
  intro rs
  induction rs with
  | nil =>
    intro _ p hp
    rw [show insertOperation [] res_name o =
        [(res_name, { name := res_name, operations := [o] })] from rfl] at hp
    rcases List.mem_cons.mp hp with rfl | hm
    · refine ⟨rfl, by simp, ?_⟩
      intro op hop
      rcases List.mem_cons.mp hop with rfl | hm2
      · exact ho
      · cases hm2
    · cases hm
  | cons q rest ih =>
    obtain ⟨k, r⟩ := q
    intro hinv p hp
    by_cases hk : k = res_name
    · subst hk
      rw [show insertOperation ((k, r) :: rest) k o =
          (k, { r with operations := r.operations ++ [o] }) :: rest by
        simp [insertOperation]] at hp
      rcases List.mem_cons.mp hp with rfl | hm
      · obtain ⟨hname, -, hops⟩ := hinv (k, r) (List.Mem.head _)
        refine ⟨hname, by simp, ?_⟩
        intro op hop
        rcases List.mem_append.mp hop with hop1 | hop2
        · exact hops op hop1
        · rcases List.mem_cons.mp hop2 with rfl | hm2
          · exact ho
          · cases hm2
      · exact hinv p (List.Mem.tail _ hm)
    · rw [show insertOperation ((k, r) :: rest) res_name o =
          (k, r) :: insertOperation rest res_name o by simp [insertOperation, hk]] at hp
      rcases List.mem_cons.mp hp with rfl | hm
      · exact hinv (k, r) (List.Mem.head _)
      · exact ih (fun q hq => hinv q (List.Mem.tail _ hq)) p hm

/-- The method loop of `Api::new` preserves the resource-map invariant. -/
theorem processOps_wellFormed (path : String) :
    ∀ (ops : List (String × OpenapiOperation))
      (acc acc2 : List (String × Resource)),
      resourcesWellFormed acc → processOps path ops acc = .ok acc2 →
      resourcesWellFormed acc2 := by
  intro ops
  induction ops with
  | nil =>
    intro acc acc2 hinv h
    injection h with h2
    exact h2 ▸ hinv
  | cons mo rest ih =>
    obtain ⟨method, op⟩ := mo
    intro acc acc2 hinv h
    rw [show processOps path ((method, op) :: rest) acc =
        (match Operation.from_openapi path method op with
          | .error e => .error e
          | .ok none => processOps path rest acc
          | .ok (some (res_name, o)) =>
            processOps path rest (insertOperation acc res_name o)) from rfl] at h
    rcases hop : Operation.from_openapi path method op with e | opt
    · rw [hop] at h
      cases h
    · rw [hop] at h
      rcases opt with _ | ⟨res_name, o⟩
      · exact ih acc acc2 hinv h
      · exact ih _ acc2
          (resourcesWellFormed_insert (from_openapi_second_segment hop) hinv) h

/-- The path loop of `Api::new` preserves the resource-map invariant. -/
theorem buildResources_wellFormed :
    ∀ (paths : List (String × ReferenceOr PathItem))
      (acc acc2 : List (String × Resource)),
      resourcesWellFormed acc → buildResources paths acc = .ok acc2 →
      resourcesWellFormed acc2 := by
  intro paths
  induction paths with
  | nil =>
    intro acc acc2 hinv h
    injection h with h2
    exact h2 ▸ hinv
  | cons ppi rest ih =>
    obtain ⟨path, pi⟩ := ppi
    intro acc acc2 hinv h
    rcases pi with ref | path_item
    · rw [show buildResources ((path, ReferenceOr.Reference ref) :: rest) acc =
          .error "$ref paths are currently not supported" from rfl] at h
      cases h
    · rcases hpar : path_item.parameters.isEmpty with _ | _
      · rw [show buildResources ((path, ReferenceOr.Item path_item) :: rest) acc =
            buildResources rest acc by simp [buildResources, hpar]] at h
        exact ih acc acc2 hinv h
      · rw [show buildResources ((path, ReferenceOr.Item path_item) :: rest) acc =
            (match processOps path path_item.operations acc with
              | .error e => .error e
              | .ok acc3 => buildResources rest acc3) by simp [buildResources, hpar]] at h
        rcases hpo : processOps path path_item.operations acc with e | acc3
        · rw [hpo] at h
          cases h
        · rw [hpo] at h
          exact ih acc3 acc2
            (processOps_wellFormed path path_item.operations acc acc3 hinv hpo) h

/-- Claim C10: in every `Api` built by `Api::new`, every resource in the
map holds at least one operation, carries its map key as its name, and
the second dot-segment of each contained operation's identifier equals
that resource name. -/
theorem C10_api_new_invariant (paths : List (String × ReferenceOr PathItem)) (api : Api)
    (h : Api.new paths = .ok api) :
    ∀ p ∈ api.resources, p.2.name = p.1 ∧ p.2.operations ≠ [] ∧
      ∀ o ∈ p.2.operations, (splitDot o.id).get? 1 = some p.1 := by
  unfold Api.new at h
  rcases hb : buildResources paths [] with e | rs
  · rw [hb] at h
    cases h
  · rw [hb] at h
    injection h with h2
    subst h2
    exact buildResources_wellFormed paths [] rs (fun p hp => by cases hp) hb

/-- Claim C10 witness: the `Api` built from the concrete path table
`c10paths` satisfies the invariant at its single resource `foo`. -/
theorem C10_witness :
    c10res.name = "foo" ∧ c10res.operations ≠ [] ∧
    (splitDot c10out.id).get? 1 = some "foo" :=
  have h := C10_api_new_invariant c10paths c10api rfl ("foo", c10res) (List.Mem.head _)
  ⟨h.1, h.2.1, h.2.2 c10out (List.Mem.head _)⟩

end Codegen
